import Mathlib

/-
Verification of the performance-testing repository: a Cucumber test harness
that shells out to a k6 browser script, captures its textual output, and
validates metric lines against thresholds; and the k6 browser script itself
(readiness poller, network correlator, configuration, screenshots,
highlighting).  Each definition below is a shallow embedding of one piece of
the JavaScript source; machine floats are modelled as rationals with an
explicit NaN value (Option none), and strings as lists of characters.
-/

/-! ## Character classes used by the regular expressions in the source -/

/-- The JS whitespace class used by this code base (subset relevant here). -/
def isJsWs (c : Char) : Bool :=
  c == ' ' || c == '\t' || c == '\n' || c == '\r' ||
    c == Char.ofNat 11 || c == Char.ofNat 12

/-- The character class from the regexes in steps.js, dot or whitespace. -/
def isDotOrWs (c : Char) : Bool := c == '.' || isJsWs c

/-- The capture-group class from the avg= regexes, digit or dot. -/
def isDigitOrDot (c : Char) : Bool := c.isDigit || c == '.'

/-! ## Regex matching for the metric-line grammar of steps.js

The two Then steps in steps.js scrape the captured k6 output with
  /main_page_load_time[.\s]*:\s*avg=([0-9.]+)(ms|s)?/   (unit optional) and
  /subcomponent_load_time[.\s]*:\s*avg=([0-9.]+)(ms|s)/ (unit required).
Both regexes are deterministic under greedy class matching because no
character of one class can start the literal that follows it, so they are
embedded as a straight-line matcher tried at every start position
(JS String.match returns the leftmost match). -/

/-- Strip a literal from the front of a character list. -/
def dropLit : List Char → List Char → Option (List Char)
  | [], s => some s
  | _ :: _, [] => none
  | c :: cs, d :: ds => if c = d then dropLit cs ds else none

/-- Unit suffix recognized by the avg= grammar. -/
inductive AvgUnit
  | ms
  | s
deriving DecidableEq

/-- The tail of the avg= pattern after "avg=" has been consumed: capture
([0-9.]+) greedily, then the unit group (ms|s).  When unitRequired is false
the unit group is optional (main-page pattern); when true a missing unit
makes the whole match fail (subcomponent pattern). -/
def avgCapture (unitRequired : Bool) (s5 : List Char) :
    Option (List Char × Option AvgUnit) :=
  let num := s5.takeWhile isDigitOrDot
  let rest := s5.dropWhile isDigitOrDot
  if num = [] then none
  else
    match rest with
    | 'm' :: 's' :: _ => some (num, some AvgUnit.ms)
    | 's' :: _ => some (num, some AvgUnit.s)
    | _ => if unitRequired then none else some (num, none)

/-- Match metric[.\s]*:\s*avg=([0-9.]+)(ms|s)(?) at the head of the list.
Returns the captured number characters and the captured unit. -/
def matchAvgAt (metric : List Char) (unitRequired : Bool) (s : List Char) :
    Option (List Char × Option AvgUnit) :=
  match dropLit metric s with
  | none => none
  | some s1 =>
    match s1.dropWhile isDotOrWs with
    | ':' :: s3 =>
      match dropLit "avg=".data (s3.dropWhile isJsWs) with
      | none => none
      | some s5 => avgCapture unitRequired s5
    | _ => none

/-- Leftmost regex scan: try the pattern at every start position in order. -/
def findMatch {α : Type} (f : List Char → Option α) : List Char → Option α
  | [] => f []
  | c :: cs =>
    match f (c :: cs) with
    | some r => some r
    | none => findMatch f cs

/-! ## parseFloat and unit normalization -/

/-- Numeric value of a digit character. -/
def digitVal (c : Char) : ℕ := c.toNat - 48

/-- Value of a big-endian digit string. -/
def digitsVal (ds : List Char) : ℕ := ds.foldl (fun a c => 10 * a + digitVal c) 0

/-- JS parseFloat restricted to the strings the capture group [0-9.]+ can
produce (digits and dots): longest valid numeric prefix, NaN (none) when the
prefix holds no digit at all (for example "." or "..3"). -/
def parseFloatDigits (s : List Char) : Option ℚ :=
  let intPart := s.takeWhile Char.isDigit
  let rest := s.dropWhile Char.isDigit
  match rest with
  | '.' :: rest2 =>
    let fracPart := rest2.takeWhile Char.isDigit
    if intPart = [] && fracPart = [] then none
    else some ((digitsVal intPart : ℚ) + (digitsVal fracPart : ℚ) / ((10 ^ fracPart.length : ℕ) : ℚ))
  | _ => if intPart = [] then none else some ((digitsVal intPart : ℚ))

/-- Unit normalization from steps.js: an ms value is divided by 1000, an s
value (or, for the main-page pattern, a missing unit) is taken as-is.  NaN
propagates through the division. -/
def normalizeToSeconds (num : Option ℚ) (unit : Option AvgUnit) : Option ℚ :=
  if unit = some AvgUnit.ms then num.map (fun q => q / 1000) else num

/-! ## The two consumers (Then steps) -/

/-- Error message thrown when the main-page metric line is absent. -/
def mainPageMsg (output : String) : String :=
  "Could not find main_page_load_time metric in k6 output. Output was:\n" ++ output

/-- Metric extraction of the step
"the main page load time should be less than N seconds": leftmost match of
the unit-optional pattern, parseFloat on the capture, ms divided by 1000. -/
def mainPageExtract (output : String) : Except String (Option ℚ) :=
  match findMatch (matchAvgAt "main_page_load_time".data false) output.data with
  | none => Except.error (mainPageMsg output)
  | some (num, unit) => Except.ok (normalizeToSeconds (parseFloatDigits num) unit)

/-- Error message thrown when the subcomponent metric line is absent. -/
def subcomponentMsg (selector output : String) : String :=
  "Could not find subcomponent_load_time metric for selector " ++ selector ++
    " in k6 output. Output was:\n" ++ output

/-- Metric extraction of the step
"each subcomponent load time should be less than N seconds": leftmost match
of the unit-required pattern, parseFloat on the capture, ms divided by 1000. -/
def subcomponentExtract (selector output : String) : Except String (Option ℚ) :=
  match findMatch (matchAvgAt "subcomponent_load_time".data true) output.data with
  | none => Except.error (subcomponentMsg selector output)
  | some (num, unit) => Except.ok (normalizeToSeconds (parseFloatDigits num) unit)

/-- The threshold guard shared by both Then steps:
isNaN(loadTime) || loadTime >= maxTime  (NaN modelled as none). -/
def thresholdViolated (loadTime : Option ℚ) (maxTime : ℤ) : Bool :=
  match loadTime with
  | none => true
  | some q => !(Rat.blt q (maxTime : ℚ))

/-- Whole main-page Then step: extraction then the strict threshold
assertion; true = step passes, false = the step throws. -/
def mainPageLoadTimeStep (output : String) (maxTime : ℤ) : Bool :=
  match mainPageExtract output with
  | Except.error _ => false
  | Except.ok lt => !thresholdViolated lt maxTime

/-- Whole subcomponent Then step for a single captured output. -/
def subcomponentLoadTimeStep (selector output : String) (maxTime : ℤ) : Bool :=
  match subcomponentExtract selector output with
  | Except.error _ => false
  | Except.ok lt => !thresholdViolated lt maxTime

/-! ## General list lemmas used by the parser proofs -/

theorem takeWhile_all {p : Char → Bool} :
    ∀ {l : List Char}, (∀ c ∈ l, p c = true) → l.takeWhile p = l := by
  intro l h
  induction l with
  | nil => rfl
  | cons c cs ih =>
    rw [List.takeWhile_cons, if_pos (h c (List.mem_cons_self c cs))]
    rw [ih (fun d hd => h d (List.mem_cons_of_mem c hd))]

theorem dropWhile_all {p : Char → Bool} :
    ∀ {l : List Char}, (∀ c ∈ l, p c = true) → l.dropWhile p = [] := by
  intro l h
  induction l with
  | nil => rfl
  | cons c cs ih =>
    rw [List.dropWhile_cons, if_pos (h c (List.mem_cons_self c cs))]
    exact ih (fun d hd => h d (List.mem_cons_of_mem c hd))

theorem dropLit_append (a r : List Char) : dropLit a (a ++ r) = some r := by
  induction a with
  | nil => rfl
  | cons c cs ih => simpa [dropLit] using ih

theorem isDigitOrDot_of_digit {c : Char} (h : c.isDigit = true) : isDigitOrDot c = true := by
  simp [isDigitOrDot, h]

theorem digit_ne_s {c : Char} (h : c.isDigit = true) : c ≠ 's' := by
  intro e
  subst e
  exact absurd h (by decide)

/-! ## Behaviour of the number/unit capture on a bare digit string -/

theorem avgCapture_digits_opt (ds : List Char) (h1 : ds ≠ [])
    (h2 : ∀ c ∈ ds, c.isDigit = true) : avgCapture false ds = some (ds, none) := by
  unfold avgCapture
  rw [takeWhile_all (fun c hc => isDigitOrDot_of_digit (h2 c hc)),
    dropWhile_all (fun c hc => isDigitOrDot_of_digit (h2 c hc))]
  simp [h1]

theorem avgCapture_digits_req (ds : List Char) (h1 : ds ≠ [])
    (h2 : ∀ c ∈ ds, c.isDigit = true) : avgCapture true ds = none := by
  unfold avgCapture
  rw [takeWhile_all (fun c hc => isDigitOrDot_of_digit (h2 c hc)),
    dropWhile_all (fun c hc => isDigitOrDot_of_digit (h2 c hc))]
  simp [h1]

theorem parseFloatDigits_digits (ds : List Char) (h1 : ds ≠ [])
    (h2 : ∀ c ∈ ds, c.isDigit = true) :
    parseFloatDigits ds = some ((digitsVal ds : ℚ)) := by
  unfold parseFloatDigits
  rw [takeWhile_all h2, dropWhile_all h2]
  simp [h1]

/-! ## Scan lemmas -/

theorem findMatch_head_some {α : Type} (f : List Char → Option α) (c : Char)
    (cs : List Char) {r : α} (h : f (c :: cs) = some r) :
    findMatch f (c :: cs) = some r := by
  simp [findMatch, h]

theorem findMatch_head_none {α : Type} (f : List Char → Option α) (c : Char)
    (cs : List Char) (h : f (c :: cs) = none) :
    findMatch f (c :: cs) = findMatch f cs := by
  simp [findMatch, h]

theorem matchAvgAt_cons_ne {mc : Char} {mrest : List Char} {req : Bool} {c : Char}
    {cs : List Char} (h : ¬ mc = c) : matchAvgAt (mc :: mrest) req (c :: cs) = none := by
  simp [matchAvgAt, dropLit, h]

theorem findMatch_skip {α : Type} (f : List Char → Option α) :
    ∀ (pre rest : List Char), (∀ c ∈ pre, ∀ cs, f (c :: cs) = none) →
      findMatch f (pre ++ rest) = findMatch f rest := by
  intro pre
  induction pre with
  | nil => intro rest _; rfl
  | cons c cs ih =>
    intro rest h
    rw [List.cons_append,
      findMatch_head_none f c (cs ++ rest) (h c (List.mem_cons_self c cs) _)]
    exact ih rest (fun d hd => h d (List.mem_cons_of_mem c hd))

/-- C1: the consumers extract a metric via the first occurrence of
metric-name, dots/whitespace, a colon and avg=number-unit, normalizing ms
values by dividing by 1000 and taking s values as-is; parsing
"main_page_load_time.....: avg=996ms    min=996ms" yields 0.996 seconds,
a line with avg=3.62s yields 3.62 seconds, the first matching occurrence
wins, and on any output with no match the raised error message embeds the
raw captured output text. -/
theorem claim_C1 :
    mainPageExtract "main_page_load_time.....: avg=996ms    min=996ms" =
      Except.ok (some ((996 : ℚ) / 1000)) ∧
    mainPageExtract "main_page_load_time.....: avg=3.62s    min=3.62s    med=3.62s    max=3.62s" =
      Except.ok (some ((362 : ℚ) / 100)) ∧
    mainPageExtract "main_page_load_time: avg=1ms\nmain_page_load_time: avg=2s" =
      Except.ok (some ((1 : ℚ) / 1000)) ∧
    (∀ output : String,
      findMatch (matchAvgAt "main_page_load_time".data false) output.data = none →
        mainPageExtract output = Except.error (mainPageMsg output) ∧
        ∃ pre : String, mainPageMsg output = pre ++ output) ∧
    (∀ selector output : String,
      findMatch (matchAvgAt "subcomponent_load_time".data true) output.data = none →
        subcomponentExtract selector output = Except.error (subcomponentMsg selector output) ∧
        ∃ pre : String, subcomponentMsg selector output = pre ++ output) := by
  refine ⟨rfl, ?_, rfl, ?_, ?_⟩
  · have h : mainPageExtract
        "main_page_load_time.....: avg=3.62s    min=3.62s    med=3.62s    max=3.62s" =
        Except.ok (some ((3 : ℚ) + (62 : ℚ) / (100 : ℚ))) := rfl
    rw [h]
    norm_num
  · intro output h
    refine ⟨by simp [mainPageExtract, h], ?_⟩
    exact ⟨"Could not find main_page_load_time metric in k6 output. Output was:\n", rfl⟩
  · intro selector output h
    refine ⟨by simp [subcomponentExtract, h], ?_⟩
    refine ⟨"Could not find subcomponent_load_time metric for selector " ++ selector ++
      " in k6 output. Output was:\n", ?_⟩
    rw [subcomponentMsg, String.append_assoc, String.append_assoc]

/-- Witness for C1: the universally quantified error cases evaluated at
concrete outputs with no matching metric line. -/
theorem claim_C1_witness :
    mainPageExtract "no metrics here" = Except.error (mainPageMsg "no metrics here") ∧
    subcomponentExtract "body" "oops" = Except.error (subcomponentMsg "body" "oops") :=
  ⟨(claim_C1.2.2.2.1 "no metrics here" (by decide)).1,
   (claim_C1.2.2.2.2 "body" "oops" (by decide)).1⟩

/-- C2: the threshold validator shared by both Then steps passes exactly
when the extracted load time is a number strictly below the limit; an exact
tie (load time equal to the limit) and a NaN load time both raise. -/
theorem claim_C2 :
    (∀ (L : Option ℚ) (M : ℤ),
      thresholdViolated L M = false ↔ ∃ q : ℚ, L = some q ∧ q < (M : ℚ)) ∧
    (∀ M : ℤ, thresholdViolated (some ((M : ℚ))) M = true) ∧
    (∀ M : ℤ, thresholdViolated none M = true) := by
  refine ⟨?_, ?_, fun _ => rfl⟩
  · intro L M
    cases L with
    | none => simp [thresholdViolated]
    | some q =>
      simp only [thresholdViolated, Bool.not_eq_false', Option.some.injEq]
      constructor
      · intro hb
        exact ⟨q, rfl, hb⟩
      · rintro ⟨q', hq', hlt⟩
        subst hq'
        exact hlt
  · intro M
    simp only [thresholdViolated, Bool.not_eq_true']
    by_contra hb
    rw [Bool.not_eq_false] at hb
    exact absurd (show (M : ℚ) < (M : ℚ) from hb) (lt_irrefl _)

/-- C10: on an output line of the shape metric-name, dots, colon, avg= and a
bare number with no unit suffix, the main-page consumer accepts the line
(its unit group is optional) and takes the bare number as seconds with no
conversion, while the subcomponent consumer, whose pattern requires an ms or
s unit, raises its metric-not-found error. -/
theorem claim_C10 (sel : String) (ds : List Char) (h1 : ds ≠ [])
    (h2 : ∀ c ∈ ds, c.isDigit = true) :
    mainPageExtract (String.mk ("main_page_load_time.....: avg=".data ++ ds)) =
      Except.ok (some ((digitsVal ds : ℚ))) ∧
    subcomponentExtract sel (String.mk ("subcomponent_load_time.....: avg=".data ++ ds)) =
      Except.error
        (subcomponentMsg sel (String.mk ("subcomponent_load_time.....: avg=".data ++ ds))) := by
  constructor
  · have hmatch : matchAvgAt "main_page_load_time".data false
        ("main_page_load_time.....: avg=".data ++ ds) = avgCapture false ds := rfl
    have hfound : findMatch (matchAvgAt "main_page_load_time".data false)
        ("main_page_load_time.....: avg=".data ++ ds) = some (ds, none) := by
      rw [show "main_page_load_time.....: avg=".data ++ ds =
        'm' :: ("ain_page_load_time.....: avg=".data ++ ds) from rfl]
      refine findMatch_head_some _ _ _ ?_
      rw [show ('m' :: ("ain_page_load_time.....: avg=".data ++ ds)) =
        "main_page_load_time.....: avg=".data ++ ds from rfl, hmatch]
      exact avgCapture_digits_opt ds h1 h2
    simp only [mainPageExtract, hfound]
    rw [parseFloatDigits_digits ds h1 h2]
    rfl
  · have hmatch : matchAvgAt "subcomponent_load_time".data true
        ("subcomponent_load_time.....: avg=".data ++ ds) = avgCapture true ds := rfl
    have hnotail : ∀ c ∈ "ubcomponent_load_time.....: avg=".data, c ≠ 's' := by decide
    have hfound : findMatch (matchAvgAt "subcomponent_load_time".data true)
        ("subcomponent_load_time.....: avg=".data ++ ds) = none := by
      rw [show "subcomponent_load_time.....: avg=".data ++ ds =
        's' :: ("ubcomponent_load_time.....: avg=".data ++ ds) from rfl]
      rw [findMatch_head_none _ _ _ (by
        rw [show ('s' :: ("ubcomponent_load_time.....: avg=".data ++ ds)) =
          "subcomponent_load_time.....: avg=".data ++ ds from rfl, hmatch]
        exact avgCapture_digits_req ds h1 h2)]
      rw [findMatch_skip _ "ubcomponent_load_time.....: avg=".data ds
        (fun c hc cs => matchAvgAt_cons_ne (fun e => hnotail c hc e.symm))]
      rw [show ds = ds ++ ([] : List Char) by rw [List.append_nil]]
      rw [findMatch_skip _ ds []
        (fun c hc cs => matchAvgAt_cons_ne (fun e => digit_ne_s (h2 c (by simpa using hc)) e.symm))]
      rfl
    simp only [subcomponentExtract, hfound]

/-- Witness for C10: the bare-number line avg=1234 evaluated concretely. -/
theorem claim_C10_witness :
    mainPageExtract (String.mk ("main_page_load_time.....: avg=".data ++ ['1', '2', '3', '4'])) =
      Except.ok (some ((digitsVal ['1', '2', '3', '4'] : ℚ))) ∧
    subcomponentExtract "body"
        (String.mk ("subcomponent_load_time.....: avg=".data ++ ['1', '2', '3', '4'])) =
      Except.error (subcomponentMsg "body"
        (String.mk ("subcomponent_load_time.....: avg=".data ++ ['1', '2', '3', '4']))) :=
  claim_C10 "body" ['1', '2', '3', '4'] (by decide) (by decide)

/-! ## CONFIG construction (k6 script)

The CONFIG object in the k6 script is built once from the environment, with
every numeric value resolved as  Math.max(floor, +__ENV.X || default).
A JS number coming out of  +__ENV.X  is modelled as Option ℚ with none for
NaN (missing or non-numeric variable); the || fallback also replaces 0. -/

/-- JS (+__ENV.X || d): NaN and 0 both fall back to the default. -/
def jsNumOr (v : Option ℚ) (d : ℚ) : ℚ :=
  match v with
  | none => d
  | some q => if q = 0 then d else q

/-- The numeric environment variables read by CONFIG. -/
structure EnvNums where
  VUS : Option ℚ
  ITERATIONS : Option ℚ
  USER_CONNECTIVITY_TIME : Option ℚ
  DOM_TIMEOUT : Option ℚ
  ELEMENT_TIMEOUT : Option ℚ
  COMPONENT_TIMEOUT : Option ℚ
  HTTP_TIMEOUT : Option ℚ
  SCREENSHOT_TIMEOUT : Option ℚ
  POLL_INTERVAL : Option ℚ

/-- CONFIG.timeouts. -/
structure ConfigTimeouts where
  domcontentloaded : ℚ
  element : ℚ
  component : ℚ
  http : ℚ
  screenshot : ℚ

/-- The numeric part of the CONFIG object. -/
structure Config where
  vus : ℚ
  iterations : ℚ
  connectivityTimeThreshold : ℚ
  timeouts : ConfigTimeouts
  pollInterval : ℚ

/-- The CONFIG construction, floor-by-Math.max as in the source. -/
def mkConfig (e : EnvNums) : Config :=
  { vus := max 1 (jsNumOr e.VUS 1)
    iterations := max 1 (jsNumOr e.ITERATIONS 1)
    connectivityTimeThreshold := max 100 (jsNumOr e.USER_CONNECTIVITY_TIME 1000)
    timeouts :=
      { domcontentloaded := max 5000 (jsNumOr e.DOM_TIMEOUT 20000)
        element := max 1000 (jsNumOr e.ELEMENT_TIMEOUT 10000)
        component := max 1000 (jsNumOr e.COMPONENT_TIMEOUT 5000)
        http := max 1000 (jsNumOr e.HTTP_TIMEOUT 5000)
        screenshot := max 200 (jsNumOr e.SCREENSHOT_TIMEOUT 500) }
    pollInterval := max 50 (jsNumOr e.POLL_INTERVAL 100) }

/-- C7: for every input environment the configuration is built totally (no
value is rejected) and every timeout/interval is floored at its minimum:
element wait at 1000ms, DOM-content-loaded at 5000ms, component at 1000ms,
HTTP at 1000ms, screenshot debounce at 200ms, poll interval at 50ms.  The
construction is a pure function producing one immutable record. -/
theorem claim_C7 (e : EnvNums) :
    1000 ≤ (mkConfig e).timeouts.element ∧
    5000 ≤ (mkConfig e).timeouts.domcontentloaded ∧
    1000 ≤ (mkConfig e).timeouts.component ∧
    1000 ≤ (mkConfig e).timeouts.http ∧
    200 ≤ (mkConfig e).timeouts.screenshot ∧
    50 ≤ (mkConfig e).pollInterval := by
  refine ⟨le_max_left _ _, le_max_left _ _, le_max_left _ _, le_max_left _ _,
    le_max_left _ _, le_max_left _ _⟩

/-! ## Environment validation (validateRequiredEnvironmentVariables)

CONFIG.testUrl and CONFIG.subcomponentSelector come from
__ENV.TEST_URL?.trim() and __ENV.SUBCOMPONENT_SELECTOR?.trim(); the
validator collects every violation into one list and throws a single error
joining them.  It runs in the default function before the HTTP connectivity
check and before any browser context is created. -/

/-- JS String.prototype.trim on the character list. -/
def trimJs (s : String) : String :=
  String.mk (((s.data.dropWhile isJsWs).reverse.dropWhile isJsWs).reverse)

/-- x?.trim() on an optional environment variable. -/
def optTrim : Option String → Option String
  | none => none
  | some s => some (trimJs s)

/-- JS falsiness of an optional string (undefined or empty). -/
def jsFalsyStr : Option String → Bool
  | none => true
  | some s => s == ""

/-- The regex  ^https?:\/\/[^\s]+$  (deterministic: the optional s cannot
overlap with the :// literal). -/
def urlPatternTest (s : String) : Bool :=
  match dropLit "http".data s.data with
  | none => false
  | some r =>
    let r2 := match r with
      | 's' :: rr => rr
      | _ => r
    match dropLit "://".data r2 with
    | none => false
    | some rest => decide (rest ≠ []) && rest.all (fun c => !(isJsWs c))

/-- The character class of the selector regex
^[a-zA-Z0-9\[\]="':._#\-\s\(\),>+~*|^$]+$ . -/
def allowedSelectorChar (c : Char) : Bool :=
  c.isAlpha || c.isDigit || isJsWs c ||
    ['[', ']', '=', '"', Char.ofNat 39, ':', '.', '_', '#', '-',
      '(', ')', ',', '>', '+', '~', '*', '|', '^', '$'].contains c

/-- The full-string selector test (anchored one-or-more of the class). -/
def selectorPatternTest (s : String) : Bool :=
  decide (s.data ≠ []) && s.data.all allowedSelectorChar

/-- The string-valued part of CONFIG consumed by validation. -/
structure RunConfigInput where
  testUrl : Option String
  subcomponentSelector : Option String

/-- CONFIG construction for the string fields. -/
def mkRunInput (envUrl envSelector : Option String) : RunConfigInput :=
  ⟨optTrim envUrl, optTrim envSelector⟩

/-- validateRequiredEnvironmentVariables: the accumulated violation list. -/
def validateRequiredEnvironmentVariables (cfg : RunConfigInput) : List String :=
  let e1 : List String :=
    if jsFalsyStr cfg.testUrl then ["TEST_URL is required and cannot be empty"]
    else
      match cfg.testUrl with
      | some url =>
        if urlPatternTest url then []
        else ["TEST_URL must be a valid URL with http or https protocol, got: " ++ url]
      | none => []
  let e2 : List String :=
    match cfg.subcomponentSelector with
    | some sel =>
      if sel == "" then []
      else if selectorPatternTest sel then []
      else ["SUBCOMPONENT_SELECTOR must be a valid CSS selector, got: " ++ sel]
    | none => []
  e1 ++ e2

/-- The single error message joining every violation. -/
def environmentValidationMessage (errs : List String) : String :=
  "Environment validation failed:\n" ++
    String.intercalate "\n" (errs.map (fun e => "  - " ++ e))

/-- Outcome of the start of the default k6 test function: validation either
throws one ConfigError before anything else, or the run proceeds to the
HTTP connectivity check and the browser session. -/
inductive RunOutcome
  | configError (msg : String)
  | proceeded
deriving DecidableEq

/-- The prefix of the default function: validation gates the session. -/
def defaultMainStart (cfg : RunConfigInput) : RunOutcome :=
  if validateRequiredEnvironmentVariables cfg = [] then RunOutcome.proceeded
  else RunOutcome.configError
    (environmentValidationMessage (validateRequiredEnvironmentVariables cfg))

/-- C5: whenever the URL is missing (or present but not http(s)-prefixed)
and a selector is present but contains a character outside the allowed set,
validation accumulates exactly the two violations, in order, and the run
aborts with the single joined ConfigError before a browser session opens;
the construction is a pure function of the inputs. -/
theorem claim_C5 (cfg : RunConfigInput)
    (hurl : jsFalsyStr cfg.testUrl = true ∨
      ∃ u, cfg.testUrl = some u ∧ jsFalsyStr cfg.testUrl = false ∧ urlPatternTest u = false)
    (hsel : ∃ sel, cfg.subcomponentSelector = some sel ∧ (sel == "") = false ∧
      selectorPatternTest sel = false) :
    ∃ m1 m2 : String,
      validateRequiredEnvironmentVariables cfg = [m1, m2] ∧
      (m1 = "TEST_URL is required and cannot be empty" ∨
        ∃ u, cfg.testUrl = some u ∧
          m1 = "TEST_URL must be a valid URL with http or https protocol, got: " ++ u) ∧
      (∃ sel, cfg.subcomponentSelector = some sel ∧
        m2 = "SUBCOMPONENT_SELECTOR must be a valid CSS selector, got: " ++ sel) ∧
      defaultMainStart cfg = RunOutcome.configError (environmentValidationMessage [m1, m2]) := by
  obtain ⟨sel, hs1, hs2, hs3⟩ := hsel
  have he2 : (match cfg.subcomponentSelector with
      | some sel =>
        if sel == "" then []
        else if selectorPatternTest sel then []
        else ["SUBCOMPONENT_SELECTOR must be a valid CSS selector, got: " ++ sel]
      | none => ([] : List String)) =
      ["SUBCOMPONENT_SELECTOR must be a valid CSS selector, got: " ++ sel] := by
    rw [hs1]
    simp [hs2, hs3]
  rcases hurl with hu | ⟨u, hu1, hu2, hu3⟩
  · refine ⟨"TEST_URL is required and cannot be empty",
      "SUBCOMPONENT_SELECTOR must be a valid CSS selector, got: " ++ sel, ?_, Or.inl rfl,
      ⟨sel, hs1, rfl⟩, ?_⟩
    · unfold validateRequiredEnvironmentVariables
      rw [if_pos hu, he2]
      rfl
    · have hv : validateRequiredEnvironmentVariables cfg =
          ["TEST_URL is required and cannot be empty",
           "SUBCOMPONENT_SELECTOR must be a valid CSS selector, got: " ++ sel] := by
        unfold validateRequiredEnvironmentVariables
        rw [if_pos hu, he2]
        rfl
      unfold defaultMainStart
      rw [hv]
      simp
  · have hv : validateRequiredEnvironmentVariables cfg =
        ["TEST_URL must be a valid URL with http or https protocol, got: " ++ u,
         "SUBCOMPONENT_SELECTOR must be a valid CSS selector, got: " ++ sel] := by
      unfold validateRequiredEnvironmentVariables
      rw [hu1] at hu2
      rw [hu1, he2]
      simp [hu2, hu3]
    refine ⟨"TEST_URL must be a valid URL with http or https protocol, got: " ++ u,
      "SUBCOMPONENT_SELECTOR must be a valid CSS selector, got: " ++ sel, hv,
      Or.inr ⟨u, hu1, rfl⟩, ⟨sel, hs1, rfl⟩, ?_⟩
    unfold defaultMainStart
    rw [hv]
    simp

/-- Witness for C5: a missing URL together with the invalid selector ";". -/
theorem claim_C5_witness :
    ∃ m1 m2 : String,
      validateRequiredEnvironmentVariables (mkRunInput none (some ";")) = [m1, m2] ∧
      (m1 = "TEST_URL is required and cannot be empty" ∨
        ∃ u, (mkRunInput none (some ";")).testUrl = some u ∧
          m1 = "TEST_URL must be a valid URL with http or https protocol, got: " ++ u) ∧
      (∃ sel, (mkRunInput none (some ";")).subcomponentSelector = some sel ∧
        m2 = "SUBCOMPONENT_SELECTOR must be a valid CSS selector, got: " ++ sel) ∧
      defaultMainStart (mkRunInput none (some ";")) =
        RunOutcome.configError (environmentValidationMessage [m1, m2]) :=
  claim_C5 (mkRunInput none (some ";")) (Or.inl rfl)
    ⟨";", rfl, by decide, by decide⟩

/-! ## Network correlator (measureReactUIPerformance request/response hooks)

The page.on("request") handler inserts an entry into the requestTimings map
(keyed by req._guid || req.url()) only when the method is in the allowed
set; the page.on("response") handler looks the key up, and when present
removes it and appends a log entry with responseTime = now - start, and when
absent does nothing.  JS Map.set replaces the value of an existing key in
place, Map.delete removes it. -/

/-- The allowed API method set. -/
def apiMethods : List String := ["GET", "POST", "PUT", "PATCH", "DELETE"]

/-- JS String.prototype.toUpperCase (ASCII, as used on method names). -/
def jsToUpper (s : String) : String := String.mk (s.data.map Char.toUpper)

/-- A pending requestTimings entry: { start, method, url }. -/
structure PendingEntry where
  start : ℤ
  method : String
  url : String
deriving DecidableEq

/-- A networkLogs entry: { method, url, responseTime, status }. -/
structure NetworkLogEntry where
  method : String
  url : String
  responseTime : ℤ
  status : ℤ
deriving DecidableEq

/-- The correlator state owned by one iteration. -/
structure NetState where
  requestTimings : List (String × PendingEntry)
  networkLogs : List NetworkLogEntry
deriving DecidableEq

/-- Map.set: replace in place when the key exists, else append. -/
def setAssoc (m : List (String × PendingEntry)) (k : String) (v : PendingEntry) :
    List (String × PendingEntry) :=
  if m.any (fun p => p.1 == k) then m.map (fun p => if p.1 == k then (k, v) else p)
  else m ++ [(k, v)]

/-- Map.get. -/
def getAssoc (m : List (String × PendingEntry)) (k : String) : Option PendingEntry :=
  (m.find? (fun p => p.1 == k)).map Prod.snd

/-- Map.delete. -/
def delAssoc (m : List (String × PendingEntry)) (k : String) :
    List (String × PendingEntry) :=
  m.filter (fun p => !(p.1 == k))

/-- One observed browser network event, with its observation time. -/
inductive NetEvent
  | request (rid method url : String) (time : ℤ)
  | response (rid method url : String) (status : ℤ) (time : ℤ)

/-- One step of the correlator. -/
def networkStep (s : NetState) (e : NetEvent) : NetState :=
  match e with
  | NetEvent.request rid m url t =>
    if apiMethods.contains (jsToUpper m) then
      { s with requestTimings := setAssoc s.requestTimings rid ⟨t, jsToUpper m, url⟩ }
    else s
  | NetEvent.response rid m url status t =>
    if apiMethods.contains (jsToUpper m) then
      match getAssoc s.requestTimings rid with
      | some entry =>
        { requestTimings := delAssoc s.requestTimings rid,
          networkLogs := s.networkLogs ++ [⟨jsToUpper m, url, t - entry.start, status⟩] }
      | none => s
    else s

/-- A whole observed interleaving. -/
def networkRun (events : List NetEvent) : NetState :=
  events.foldl networkStep ⟨[], []⟩

theorem setAssoc_mem {m : List (String × PendingEntry)} {k : String} {v : PendingEntry}
    {p : String × PendingEntry} (h : p ∈ setAssoc m k v) : p ∈ m ∨ p = (k, v) := by
  unfold setAssoc at h
  split at h
  · obtain ⟨q, hq, he⟩ := List.mem_map.mp h
    by_cases hk : (q.1 == k) = true
    · right
      rw [hk] at he
      simp at he
      exact he.symm
    · left
      rw [Bool.not_eq_true] at hk
      rw [hk] at he
      simp at he
      rwa [he] at hq
  · rcases List.mem_append.mp h with hm | hm
    · exact Or.inl hm
    · simp at hm
      exact Or.inr hm

theorem delAssoc_mem {m : List (String × PendingEntry)} {k : String}
    {p : String × PendingEntry} (h : p ∈ delAssoc m k) : p ∈ m :=
  (List.mem_filter.mp h).1

/-- C6: for every interleaving of request and response events, only
requests whose (upper-cased) method is in the allowed set ever enter the
pending map; a response whose identifier matches a pending entry removes
that entry and appends exactly one log entry whose responseTime is the
response observation time minus the request observation time; a response
with no matching pending entry leaves the state unchanged (no record, and
the correlator is a total function, so no error). -/
theorem claim_C6 :
    (∀ (s : NetState) (rid m url : String) (t : ℤ),
      apiMethods.contains (jsToUpper m) = false →
      networkStep s (NetEvent.request rid m url t) = s) ∧
    (∀ (s : NetState) (rid m url : String) (status t : ℤ) (e : PendingEntry),
      apiMethods.contains (jsToUpper m) = true →
      getAssoc s.requestTimings rid = some e →
      networkStep s (NetEvent.response rid m url status t) =
        { requestTimings := delAssoc s.requestTimings rid,
          networkLogs := s.networkLogs ++ [⟨jsToUpper m, url, t - e.start, status⟩] }) ∧
    (∀ (s : NetState) (rid m url : String) (status t : ℤ),
      getAssoc s.requestTimings rid = none →
      networkStep s (NetEvent.response rid m url status t) = s) ∧
    (∀ (s : NetState) (rid m url : String) (status t : ℤ) (p : String × PendingEntry),
      p ∈ (networkStep s (NetEvent.response rid m url status t)).requestTimings →
      p ∈ s.requestTimings) ∧
    (∀ (events : List NetEvent) (p : String × PendingEntry),
      p ∈ (networkRun events).requestTimings →
      apiMethods.contains p.2.method = true) := by
  refine ⟨?_, ?_, ?_, ?_, ?_⟩
  · intro s rid m url t h
    simp only [networkStep]
    rw [if_neg (by rw [h]; exact Bool.false_ne_true)]
  · intro s rid m url status t e h1 h2
    simp only [networkStep]
    rw [if_pos h1, h2]
  · intro s rid m url status t h
    simp only [networkStep]
    split
    · rw [h]
    · rfl
  · intro s rid m url status t p hp
    simp only [networkStep] at hp
    split at hp
    · split at hp
      · exact delAssoc_mem hp
      · exact hp
    · exact hp
  · intro events
    suffices hgen : ∀ (s0 : NetState),
        (∀ p ∈ s0.requestTimings, apiMethods.contains p.2.method = true) →
        ∀ p ∈ (events.foldl networkStep s0).requestTimings,
          apiMethods.contains p.2.method = true by
      exact hgen ⟨[], []⟩ (by intro p hp; simp at hp)
    induction events with
    | nil => intro s0 h0 p hp; exact h0 p hp
    | cons ev evs ih =>
      intro s0 h0
      refine ih (networkStep s0 ev) ?_
      intro p hp
      cases ev with
      | request rid m url t =>
        simp only [networkStep] at hp
        split at hp
        · rcases setAssoc_mem hp with hm | he
          · exact h0 p hm
          · rw [he]
            assumption
        · exact h0 p hp
      | response rid m url status t =>
        simp only [networkStep] at hp
        split at hp
        · split at hp
          · exact h0 p (delAssoc_mem hp)
          · exact h0 p hp
        · exact h0 p hp

/-- Witness for C6: the four hypothetical parts evaluated on concrete
states and events (ignored method, matched response, unmatched response,
and a run whose pending map holds only allowed methods). -/
theorem claim_C6_witness :
    networkStep ⟨[], []⟩ (NetEvent.request "r1" "head" "u" 5) = ⟨[], []⟩ ∧
    networkStep ⟨[("r1", ⟨5, "GET", "u"⟩)], []⟩ (NetEvent.response "r1" "get" "u" 200 12) =
      ⟨[], [⟨"GET", "u", 7, 200⟩]⟩ ∧
    networkStep ⟨[], []⟩ (NetEvent.response "r2" "GET" "u" 200 12) = ⟨[], []⟩ ∧
    (("r1", (⟨5, "GET", "u"⟩ : PendingEntry)) ∈
        (networkStep ⟨[("r1", ⟨5, "GET", "u"⟩)], []⟩
          (NetEvent.response "zz" "GET" "u" 200 12)).requestTimings →
      ("r1", (⟨5, "GET", "u"⟩ : PendingEntry)) ∈
        ([("r1", ⟨5, "GET", "u"⟩)] : List (String × PendingEntry))) ∧
    (∀ p ∈ (networkRun [NetEvent.request "r1" "get" "u" 5]).requestTimings,
      apiMethods.contains p.2.method = true) := by
  refine ⟨?_, ?_, ?_, ?_, ?_⟩
  · exact claim_C6.1 ⟨[], []⟩ "r1" "head" "u" 5 (by decide)
  · have h := claim_C6.2.1 ⟨[("r1", ⟨5, "GET", "u"⟩)], []⟩ "r1" "get" "u" 200 12
      ⟨5, "GET", "u"⟩ (by decide) (by decide)
    rw [h]
    rfl
  · exact claim_C6.2.2.1 ⟨[], []⟩ "r2" "GET" "u" 200 12 (by decide)
  · exact fun hp => claim_C6.2.2.2.1 ⟨[("r1", ⟨5, "GET", "u"⟩)], []⟩ "zz" "GET" "u" 200 12
      ("r1", ⟨5, "GET", "u"⟩) hp
  · exact claim_C6.2.2.2.2 [NetEvent.request "r1" "get" "u" 5]

/-! ## Screenshot filename composition (takeScreenshot)

The filename is timestamp, sanitized scenario name, sanitized tags, test
type, status, sanitized expected text, VU id and iteration id, joined with
underscores after dropping empty components, plus ".png".  Numbers are
rendered in decimal. -/

/-- Decimal digit character. -/
def digitChar (d : ℕ) : Char := Char.ofNat (48 + d)

/-- Little-endian digits of a number (fuel-structural division loop). -/
def natDigitsRevAux : ℕ → ℕ → List Char
  | 0, _ => []
  | fuel + 1, n => if n = 0 then [] else digitChar (n % 10) :: natDigitsRevAux fuel (n / 10)

/-- Little-endian decimal digits. -/
def natDigitsRev (n : ℕ) : List Char := natDigitsRevAux n n

/-- JS template-literal rendering of a nonnegative number. -/
def natDigits (n : ℕ) : List Char := if n = 0 then ['0'] else (natDigitsRev n).reverse

/-- Value of a little-endian digit list. -/
def digitsValRev : List Char → ℕ
  | [] => 0
  | c :: cs => digitVal c + 10 * digitsValRev cs

theorem digitVal_digitChar {d : ℕ} (h : d < 10) : digitVal (digitChar d) = d := by
  interval_cases d <;> rfl

theorem digitChar_isDigit {d : ℕ} (h : d < 10) : (digitChar d).isDigit = true := by
  interval_cases d <;> rfl

theorem natDigitsRevAux_val :
    ∀ (fuel n : ℕ), n ≤ fuel → digitsValRev (natDigitsRevAux fuel n) = n := by
  intro fuel
  induction fuel with
  | zero => intro n h; interval_cases n; rfl
  | succ f ih =>
    intro n h
    by_cases hn : n = 0
    · subst hn; simp [natDigitsRevAux, digitsValRev]
    · rw [natDigitsRevAux, if_neg hn]
      rw [digitsValRev, digitVal_digitChar (Nat.mod_lt n (by norm_num)),
        ih (n / 10) (by omega)]
      omega

theorem natDigitsRev_val (n : ℕ) : digitsValRev (natDigitsRev n) = n :=
  natDigitsRevAux_val n n (le_refl n)

theorem natDigitsRevAux_digits :
    ∀ (fuel n : ℕ), ∀ c ∈ natDigitsRevAux fuel n, c.isDigit = true := by
  intro fuel
  induction fuel with
  | zero => intro n c hc; simp [natDigitsRevAux] at hc
  | succ f ih =>
    intro n c hc
    rw [natDigitsRevAux] at hc
    by_cases hn : n = 0
    · rw [if_pos hn] at hc; simp at hc
    · rw [if_neg hn] at hc
      rcases List.mem_cons.mp hc with he | hm
      · rw [he]; exact digitChar_isDigit (Nat.mod_lt n (by norm_num))
      · exact ih (n / 10) c hm

theorem natDigits_digits (n : ℕ) : ∀ c ∈ natDigits n, c.isDigit = true := by
  intro c hc
  unfold natDigits at hc
  split at hc
  · simp at hc; rw [hc]; rfl
  · exact natDigitsRevAux_digits n n c (List.mem_reverse.mp hc)

theorem natDigits_ne_nil (n : ℕ) : natDigits n ≠ [] := by
  unfold natDigits
  split
  · simp
  · intro h
    have hv := natDigitsRev_val n
    rw [show natDigitsRev n = [] from by
      have := congrArg List.reverse h
      simpa using this] at hv
    simp [digitsValRev] at hv
    omega

theorem natDigits_inj {m n : ℕ} (h : natDigits m = natDigits n) : m = n := by
  unfold natDigits at h
  by_cases hm : m = 0 <;> by_cases hn : n = 0
  · omega
  · rw [if_pos hm, if_neg hn] at h
    have := congrArg (fun l => digitsValRev l.reverse) h
    simp [natDigitsRev_val] at this
    simp [digitsValRev, digitVal] at this
    omega
  · rw [if_neg hm, if_pos hn] at h
    have := congrArg (fun l => digitsValRev l.reverse) h
    simp [natDigitsRev_val] at this
    simp [digitsValRev, digitVal] at this
    omega
  · rw [if_neg hm, if_neg hn] at h
    have := congrArg (fun l => digitsValRev l.reverse) h
    simp [natDigitsRev_val] at this
    omega

/-- Cancel equal-length digit runs at the front of two equal lists, given
that the first non-digit character witnesses where each run stops. -/
theorem digits_front_cancel :
    ∀ (u v x y : List Char) (c c' : Char),
      (∀ a ∈ u, a.isDigit = true) → (∀ a ∈ v, a.isDigit = true) →
      c.isDigit = false → c'.isDigit = false →
      u ++ c :: x = v ++ c' :: y → u = v ∧ c :: x = c' :: y := by
  intro u
  induction u with
  | nil =>
    intro v x y c c' hu hv hc hc' h
    cases v with
    | nil => exact ⟨rfl, h⟩
    | cons d ds =>
      rw [List.nil_append, List.cons_append] at h
      injection h with h1 h2
      rw [← h1] at hv
      rw [hv c (List.mem_cons_self c ds)] at hc
      cases hc
  | cons a as ih =>
    intro v x y c c' hu hv hc hc' h
    cases v with
    | nil =>
      rw [List.cons_append, List.nil_append] at h
      injection h with h1 h2
      rw [h1] at hu
      rw [hu c' (List.mem_cons_self c' as)] at hc'
      cases hc'
    | cons d ds =>
      rw [List.cons_append, List.cons_append] at h
      injection h with h1 h2
      obtain ⟨he, hr⟩ := ih ds x y c c'
        (fun b hb => hu b (List.mem_cons_of_mem a hb))
        (fun b hb => hv b (List.mem_cons_of_mem d hb)) hc hc' h2
      exact ⟨by rw [h1, he], hr⟩

/-- The scenario-name and expected-text sanitizer first pass:
replace(/[^a-zA-Z0-9\s]/g, "") keeps alphanumerics and whitespace. -/
def keepAlnumSpace (l : List Char) : List Char :=
  l.filter (fun c => c.isAlpha || c.isDigit || isJsWs c)

/-- replace(/\s+/g, "_"): every maximal whitespace run becomes one '_'. -/
def collapseWsAux : Bool → List Char → List Char
  | _, [] => []
  | prevWs, c :: cs =>
    if isJsWs c then
      if prevWs then collapseWsAux true cs else '_' :: collapseWsAux true cs
    else c :: collapseWsAux false cs

def collapseWs (l : List Char) : List Char := collapseWsAux false l

theorem collapseWsAux_mem :
    ∀ (b : Bool) (l : List Char) (c : Char), c ∈ collapseWsAux b l →
      c = '_' ∨ (c ∈ l ∧ isJsWs c = false) := by
  intro b l
  induction l generalizing b with
  | nil => intro c hc; simp [collapseWsAux] at hc
  | cons d ds ih =>
    intro c hc
    rw [collapseWsAux] at hc
    by_cases hw : isJsWs d = true
    · rw [if_pos hw] at hc
      by_cases hb : b = true
      · rw [if_pos hb] at hc
        rcases ih true c hc with h | ⟨hm, hn⟩
        · exact Or.inl h
        · exact Or.inr ⟨List.mem_cons_of_mem d hm, hn⟩
      · rw [if_neg hb] at hc
        rcases List.mem_cons.mp hc with he | hm
        · exact Or.inl he
        · rcases ih true c hm with h | ⟨hm2, hn⟩
          · exact Or.inl h
          · exact Or.inr ⟨List.mem_cons_of_mem d hm2, hn⟩
    · rw [if_neg hw] at hc
      rcases List.mem_cons.mp hc with he | hm
      · rw [Bool.not_eq_true] at hw
        rw [← he] at hw
        exact Or.inr ⟨by rw [he]; exact List.mem_cons_self d ds, hw⟩
      · rcases ih false c hm with h | ⟨hm2, hn⟩
        · exact Or.inl h
        · exact Or.inr ⟨List.mem_cons_of_mem d hm2, hn⟩

/-- The timestamp component: ISO string with ':' and '.' replaced by '-',
then slice(0, -5). -/
def sanitizeTimestamp (iso : String) : List Char :=
  (iso.data.map (fun c => if c == ':' || c == '.' then '-' else c)).take
    (iso.data.length - 5)

/-- (SCENARIO_NAME).replace strip, whitespace collapse, substring(0, 30). -/
def sanitizeScenarioName (s : String) : List Char :=
  (collapseWs (keepAlnumSpace s.data)).take 30

/-- (SCENARIO_TAGS).replace(/[@,]/g, ""), whitespace collapse,
substring(0, 20): no other character is stripped. -/
def sanitizeScenarioTags (s : String) : List Char :=
  (collapseWs (s.data.filter (fun c => !(c == '@' || c == ',')))).take 20

/-- cleanExpectedText: like the scenario name but substring(0, 15), and
empty when no expected text was given. -/
def sanitizeExpectedText : Option String → List Char
  | none => []
  | some t => (collapseWs (keepAlnumSpace t.data)).take 15

/-- The VU${vuId} component. -/
def vuPart (v : ℕ) : List Char := 'V' :: 'U' :: natDigits v

/-- The Iter${iterationId} component. -/
def iterPart (i : ℕ) : List Char := 'I' :: 't' :: 'e' :: 'r' :: natDigits i

/-- Array.prototype.join("_"). -/
def joinParts : List (List Char) → List Char
  | [] => []
  | [p] => p
  | p :: ps => p ++ '_' :: joinParts ps

/-- The composed screenshot filename of takeScreenshot: the eight
components in fixed order, empty ones dropped by filter(Boolean), joined
with underscores, plus the .png extension. -/
def takeScreenshotFilename (iso scenarioName scenarioTags testType status : String)
    (expectedText : Option String) (vuId iterationId : ℕ) : List Char :=
  joinParts (([sanitizeTimestamp iso, sanitizeScenarioName scenarioName,
      sanitizeScenarioTags scenarioTags, testType.data, status.data,
      sanitizeExpectedText expectedText, vuPart vuId, iterPart iterationId]).filter
    (fun p => !p.isEmpty)) ++ ".png".data

theorem joinParts_ends (xs : List (List Char)) (a b : List Char) :
    ∃ z : List Char, joinParts (xs ++ [a, b]) = z ++ (a ++ '_' :: b) := by
  induction xs with
  | nil => exact ⟨[], rfl⟩
  | cons x xs ih =>
    obtain ⟨z, hz⟩ := ih
    cases xs with
    | nil =>
      refine ⟨x ++ ['_'], ?_⟩
      rw [show ([x] ++ [a, b] : List (List Char)) = [x, a, b] from rfl]
      rw [show joinParts [x, a, b] = x ++ '_' :: joinParts [a, b] from rfl]
      rw [show joinParts [a, b] = a ++ '_' :: b from rfl]
      simp
    | cons y ys =>
      refine ⟨x ++ '_' :: z, ?_⟩
      rw [List.cons_append]
      rw [show ((y :: ys) ++ [a, b] : List (List Char)) = y :: (ys ++ [a, b]) from rfl]
      rw [show joinParts (x :: y :: (ys ++ [a, b])) =
        x ++ '_' :: joinParts (y :: (ys ++ [a, b])) from rfl]
      rw [show (y :: (ys ++ [a, b]) : List (List Char)) = (y :: ys) ++ [a, b] from rfl, hz]
      simp

theorem takeScreenshotFilename_shape (iso sn st tt ss : String) (et : Option String)
    (v i : ℕ) :
    ∃ z : List Char, takeScreenshotFilename iso sn st tt ss et v i =
      z ++ (vuPart v ++ '_' :: (iterPart i ++ ".png".data)) := by
  unfold takeScreenshotFilename
  rw [show [sanitizeTimestamp iso, sanitizeScenarioName sn, sanitizeScenarioTags st,
      tt.data, ss.data, sanitizeExpectedText et, vuPart v, iterPart i] =
      [sanitizeTimestamp iso, sanitizeScenarioName sn, sanitizeScenarioTags st,
       tt.data, ss.data, sanitizeExpectedText et] ++ [vuPart v, iterPart i] from rfl]
  rw [List.filter_append]
  rw [show List.filter (fun p => !p.isEmpty) [vuPart v, iterPart i] =
    [vuPart v, iterPart i] from rfl]
  obtain ⟨z, hz⟩ := joinParts_ends
    (List.filter (fun p => !p.isEmpty)
      [sanitizeTimestamp iso, sanitizeScenarioName sn, sanitizeScenarioTags st,
       tt.data, ss.data, sanitizeExpectedText et]) (vuPart v) (iterPart i)
  rw [hz]
  exact ⟨z, by simp [List.append_assoc]⟩

theorem filename_ids_inj {z1 z2 : List Char} {v1 i1 v2 i2 : ℕ}
    (h : z1 ++ (vuPart v1 ++ '_' :: (iterPart i1 ++ ".png".data)) =
         z2 ++ (vuPart v2 ++ '_' :: (iterPart i2 ++ ".png".data))) :
    v1 = v2 ∧ i1 = i2 := by
  have hrev := congrArg List.reverse h
  simp only [vuPart, iterPart, List.reverse_append, List.reverse_cons,
    List.append_assoc, List.cons_append, List.nil_append, List.reverse_nil] at hrev
  simp only [show (".png".data : List Char) = ['.', 'p', 'n', 'g'] from rfl,
    List.reverse_cons, List.reverse_nil, List.append_assoc, List.cons_append,
    List.nil_append, List.cons.injEq, true_and] at hrev
  obtain ⟨hi, htail⟩ := digits_front_cancel _ _ _ _ 'r' 'r'
    (fun a ha => natDigits_digits i1 a (List.mem_reverse.mp ha))
    (fun a ha => natDigits_digits i2 a (List.mem_reverse.mp ha))
    (by decide) (by decide) hrev
  have hieq : i1 = i2 := natDigits_inj (List.reverse_injective hi)
  simp only [List.cons.injEq, true_and] at htail
  obtain ⟨hv, -⟩ := digits_front_cancel _ _ _ _ 'U' 'U'
    (fun a ha => natDigits_digits v1 a (List.mem_reverse.mp ha))
    (fun a ha => natDigits_digits v2 a (List.mem_reverse.mp ha))
    (by decide) (by decide) htail
  exact ⟨natDigits_inj (List.reverse_injective hv), hieq⟩

/-- C8 counterexample: the claim asserts every filename component is
restricted to filesystem-safe characters ([A-Za-z0-9_] per the spec), but
the tag sanitizer only strips the at-sign and the comma, so a dot in the
scenario tags flows into the tag component (and hence into the filename)
unchanged. -/
theorem claim_C8_counterexample :
    sanitizeScenarioTags "a.b" = ['a', '.', 'b'] ∧
    '.' ∈ sanitizeScenarioTags "a.b" ∧
    Char.isAlpha '.' = false ∧ Char.isDigit '.' = false ∧ '.' ≠ '_' ∧
    takeScreenshotFilename "" "" "a.b" "component" "pass" none 1 2 =
      "a.b_component_pass_VU1_Iter2.png".data := by
  refine ⟨rfl, by decide, rfl, rfl, by decide, rfl⟩

theorem sanitized_chars_alnum_underscore {s : String} {c : Char}
    (hc : c ∈ collapseWs (keepAlnumSpace s.data)) :
    c.isAlpha = true ∨ c.isDigit = true ∨ c = '_' := by
  rcases collapseWsAux_mem false (keepAlnumSpace s.data) c hc with he | ⟨hm, hn⟩
  · exact Or.inr (Or.inr he)
  · have hp := (List.mem_filter.mp hm).2
    rw [hn] at hp
    simp at hp
    rcases hp with h | h
    · exact Or.inl h
    · exact Or.inr (Or.inl h)

/-- C8 (amended): any two screenshot filenames with different (vu,
iteration) pairs are distinct, whatever the timestamps and the other
components are; the filename is a pure function of the listed inputs; the
scenario-name and expected-text components are sanitized to
alphanumerics/underscore and truncated to 30 and 15 characters, and the tag
component is truncated to 20 characters but only stripped of at-signs and
commas (other characters, for example a dot, pass through; test type and
status are caller-supplied literals included verbatim). -/
theorem claim_C8 (iso1 sn1 st1 tt1 ss1 iso2 sn2 st2 tt2 ss2 : String)
    (et1 et2 : Option String) (v1 i1 v2 i2 : ℕ)
    (hne : ¬(v1 = v2 ∧ i1 = i2)) :
    takeScreenshotFilename iso1 sn1 st1 tt1 ss1 et1 v1 i1 ≠
      takeScreenshotFilename iso2 sn2 st2 tt2 ss2 et2 v2 i2 ∧
    (sanitizeScenarioName sn1).length ≤ 30 ∧
    (∀ c ∈ sanitizeScenarioName sn1, c.isAlpha = true ∨ c.isDigit = true ∨ c = '_') ∧
    (sanitizeExpectedText et1).length ≤ 15 ∧
    (∀ c ∈ sanitizeExpectedText et1, c.isAlpha = true ∨ c.isDigit = true ∨ c = '_') ∧
    (sanitizeScenarioTags st1).length ≤ 20 := by
  refine ⟨?_, ?_, ?_, ?_, ?_, ?_⟩
  · intro heq
    obtain ⟨z1, hz1⟩ := takeScreenshotFilename_shape iso1 sn1 st1 tt1 ss1 et1 v1 i1
    obtain ⟨z2, hz2⟩ := takeScreenshotFilename_shape iso2 sn2 st2 tt2 ss2 et2 v2 i2
    rw [hz1, hz2] at heq
    exact hne (filename_ids_inj heq)
  · simp [sanitizeScenarioName, List.length_take_le]
  · intro c hc
    exact sanitized_chars_alnum_underscore (List.take_subset 30 _ hc)
  · cases et1 with
    | none => simp [sanitizeExpectedText]
    | some t => simp [sanitizeExpectedText, List.length_take_le]
  · intro c hc
    cases et1 with
    | none => simp [sanitizeExpectedText] at hc
    | some t =>
      exact sanitized_chars_alnum_underscore (List.take_subset 15 _ hc)
  · simp [sanitizeScenarioTags, List.length_take_le]

/-- Witness for C8: two captures in the same millisecond with the same
scenario data but different workers, and same worker but different
iterations, yield distinct filenames. -/
theorem claim_C8_witness :
    (takeScreenshotFilename "t" "scn" "tags" "component" "pass" none 1 7 ≠
      takeScreenshotFilename "t" "scn" "tags" "component" "pass" none 2 7) ∧
    (takeScreenshotFilename "t" "scn" "tags" "component" "pass" none 1 7 ≠
      takeScreenshotFilename "t" "scn" "tags" "component" "pass" none 1 8) :=
  ⟨(claim_C8 "t" "scn" "tags" "component" "pass" "t" "scn" "tags" "component" "pass"
      none none 1 7 2 7 (by omega)).1,
   (claim_C8 "t" "scn" "tags" "component" "pass" "t" "scn" "tags" "component" "pass"
      none none 1 7 1 8 (by omega)).1⟩

/-! ## Component highlighting (applyHighlighting / removeHighlighting)

applyHighlighting walks the selected element's text nodes; each not-yet
highlighted parent whose text contains the expected text gets six inline
style properties saved into an original record, the highlight styles
assigned, and the dataset.highlighted marker set; the collected
element/original pairs are stored in window._highlightedElements.
removeHighlighting assigns each saved original back, deletes the marker and
nulls the store.  Elements are modelled positionally, with the saved store
as a parallel list of optional originals; the walker's text test and the
querySelector hit are sample fields. -/

/-- The six inline style properties touched by the highlighter. -/
structure ElemStyle where
  backgroundColor : String
  padding : String
  border : String
  borderRadius : String
  boxShadow : String
  fontWeight : String
deriving DecidableEq

/-- The highlight style constants from the source. -/
def highlightStyle : ElemStyle :=
  ⟨"rgba(255,255,0,0.8)", "4px 8px", "2px solid rgba(255,165,0,0.9)", "4px",
   "0 0 8px rgba(255,165,0,0.6)", "bold"⟩

/-- One candidate parent element on the page. -/
structure PageElem where
  style : ElemStyle
  highlighted : Bool
  textHit : Bool
deriving DecidableEq

/-- The page state touched by the highlighter: the elements and
window._highlightedElements. -/
structure PageModel where
  elems : List PageElem
  saved : Option (List (Option ElemStyle))
deriving DecidableEq

/-- applyHighlighting: no-op when the feature is disabled or the selector
or text find nothing; otherwise override styles of fresh hits, mark them,
and record the element/original pairs. -/
def applyHighlighting (hlEnabled found : Bool) (p : PageModel) : PageModel :=
  if !hlEnabled then p
  else if !found then p
  else
    { elems := p.elems.map (fun e =>
        if e.textHit && !e.highlighted then
          { e with style := highlightStyle, highlighted := true }
        else e),
      saved := some (p.elems.map (fun e =>
        if e.textHit && !e.highlighted then some e.style else none)) }

/-- Restore each saved original in place. -/
def restoreElems : List PageElem → List (Option ElemStyle) → List PageElem
  | [], _ => []
  | es, [] => es
  | e :: es, o :: os =>
    (match o with
     | some st => { e with style := st, highlighted := false }
     | none => e) :: restoreElems es os

/-- removeHighlighting: assign the originals back, delete the markers,
null the store; no-op when disabled or nothing was stored. -/
def removeHighlighting (hlEnabled : Bool) (p : PageModel) : PageModel :=
  if !hlEnabled then p
  else
    match p.saved with
    | none => p
    | some orig => { elems := restoreElems p.elems orig, saved := none }

/-- C9: whenever a highlight is actually applied (feature on, element and
text found), removing it afterwards restores exactly the original style
values of every overridden property, clears every highlight marker the
application set, and leaves no store behind: the apply-then-remove
composition is the identity on the page except for nulling the saved
store. -/
theorem claim_C9 (p : PageModel) :
    removeHighlighting true (applyHighlighting true true p) = { p with saved := none } := by
  unfold applyHighlighting removeHighlighting
  simp only [Bool.not_true, Bool.false_eq_true, if_false]
  have hrestore : ∀ es : List PageElem,
      restoreElems
        (es.map (fun e =>
          if e.textHit && !e.highlighted then
            { e with style := highlightStyle, highlighted := true }
          else e))
        (es.map (fun e =>
          if e.textHit && !e.highlighted then some e.style else none)) = es := by
    intro es
    induction es with
    | nil => rfl
    | cons e es ih =>
      by_cases hc : (e.textHit && !e.highlighted) = true
      · have hh : e.highlighted = false := by
          have h2 := ((Bool.and_eq_true _ _).mp hc).2
          rwa [Bool.not_eq_true'] at h2
        simp only [List.map_cons, if_pos hc, restoreElems, ih]
        cases e
        simp_all
      · simp only [List.map_cons, if_neg hc, restoreElems, ih]
  rw [hrestore]

/-! ## Readiness poller (waitForReactComponentReady)

The poller loops while Date.now() - startTime < timeout.  Each iteration:
throttle (sleep the remainder when the previous check was less than
max(50, pollInterval) ago), re-sample the DOM, run the ordered checklist
with early continue, and on full success record loadTime and break; every
non-breaking path sleeps pollInterval before the next iteration.  After the
loop, a zero loadTime (no success) is replaced by the elapsed time.  Time
is discrete: a sleep of d advances the clock by exactly d, sampling is
instantaneous, and the DOM is a function from absolute time to a sample. -/

/-- What one tick observes of the DOM: querySelector hit, visibility,
isEnabled (none when the handle has no isEnabled function, which the code
treats as enabled), textContent (none for null), the text-locator probe
(throwing falls back to the element visibility), and the paint signal. -/
structure DomSample where
  found : Bool
  visible : Bool
  enabled : Option Bool
  textContent : Option String
  locatorThrows : Bool
  locatorVisible : Bool
  paintDone : Bool

/-- The componentState record. -/
structure ComponentState where
  isVisible : Bool
  isEnabled : Bool
  isInteractable : Bool
  containsExpectedText : Bool
  expectedTextIsVisible : Bool
  paintWorkCompleted : Bool
  loadTime : ℕ
deriving DecidableEq

/-- The record created at poll start. -/
def initComponentState : ComponentState := ⟨false, false, false, false, false, false, 0⟩

/-- JS String.prototype.includes on character lists. -/
def hasSubstr (needle : List Char) : List Char → Bool
  | [] => (dropLit needle []).isSome
  | c :: cs => (dropLit needle (c :: cs)).isSome || hasSubstr needle cs

/-- One checklist pass over a fresh sample at the given elapsed time:
returns the updated state and whether the loop breaks (full success). -/
def pollCheck (smp : DomSample) (expectedText : Option String) (st : ComponentState)
    (elapsed : ℕ) : ComponentState × Bool :=
  if !smp.found then (st, false)
  else
    let st1 := { st with isVisible := smp.visible }
    if !smp.visible then (st1, false)
    else
      let en := smp.enabled.getD true
      let st2 := { st1 with isEnabled := en, isInteractable := smp.visible && en }
      if !(smp.visible && en) then (st2, false)
      else
        match expectedText with
        | some text =>
          let contains := match smp.textContent with
            | none => false
            | some tc => hasSubstr text.data tc.data
          let st3 := { st2 with containsExpectedText := contains }
          if !contains then (st3, false)
          else
            let tvis := if smp.locatorThrows then st3.isVisible else smp.locatorVisible
            let st4 := { st3 with expectedTextIsVisible := tvis }
            if !tvis then (st4, false)
            else
              let st5 := { st4 with paintWorkCompleted := smp.paintDone }
              if smp.paintDone then ({ st5 with loadTime := elapsed }, true) else (st5, false)
        | none =>
          let st3 := { st2 with containsExpectedText := true, expectedTextIsVisible := true,
                                paintWorkCompleted := smp.paintDone }
          if smp.paintDone then ({ st3 with loadTime := elapsed }, true) else (st3, false)

/-- All applicable checklist conditions hold in one sample. -/
def passesAll (smp : DomSample) (expectedText : Option String) : Bool :=
  smp.found && smp.visible && smp.enabled.getD true &&
    (match expectedText with
     | none => true
     | some text =>
       (match smp.textContent with
        | none => false
        | some tc => hasSubstr text.data tc.data) &&
       (if smp.locatorThrows then smp.visible else smp.locatorVisible)) &&
    smp.paintDone

/-- The state recorded at the success tick. -/
def readyState (e : ℕ) : ComponentState := ⟨true, true, true, true, true, true, e⟩

/-- The poll loop.  Arguments: fuel, current absolute time, lastCheckTime,
state.  Returns the state and the loop exit time. -/
def pollAux (env : ℕ → DomSample) (expectedText : Option String)
    (startTime pollI timeout : ℕ) :
    ℕ → ℕ → ℕ → ComponentState → ComponentState × ℕ
  | 0, now, _, st => (st, now)
  | fuel + 1, now, lastCheck, st =>
    if now - startTime < timeout then
      if now - lastCheck < max 50 pollI then
        pollAux env expectedText startTime pollI timeout fuel
          (now + (max 50 pollI - (now - lastCheck))) lastCheck st
      else
        let r := pollCheck (env now) expectedText st (now - startTime)
        if r.2 then (r.1, now)
        else pollAux env expectedText startTime pollI timeout fuel (now + pollI) now r.1
    else (st, now)

/-- waitForReactComponentReady: run the loop (the fuel covers every
reachable iteration), then replace a falsy loadTime by the elapsed time. -/
def waitForReactComponentReady (env : ℕ → DomSample) (expectedText : Option String)
    (startTime pollI timeout : ℕ) : ComponentState :=
  let r := pollAux env expectedText startTime pollI timeout (2 * timeout + 4)
    startTime 0 initComponentState
  if r.1.loadTime = 0 then { r.1 with loadTime := r.2 - startTime } else r.1

theorem pollCheck_passes (smp : DomSample) (text : Option String) (st : ComponentState)
    (e : ℕ) (h : passesAll smp text = true) :
    pollCheck smp text st e = (readyState e, true) := by
  obtain ⟨f, vis, en, tc, lthr, lvis, pd⟩ := smp
  obtain ⟨a, b, c, d, d2, g, lt⟩ := st
  simp only [passesAll, Bool.and_eq_true] at h
  obtain ⟨⟨⟨⟨hf, hv⟩, he⟩, ht⟩, hp⟩ := h
  subst hf
  subst hv
  subst hp
  cases text with
  | none => simp [pollCheck, readyState, he]
  | some t =>
    simp only [Bool.and_eq_true] at ht
    obtain ⟨htc, htv⟩ := ht
    cases tc with
    | none => simp at htc
    | some tcs =>
      have htc2 : hasSubstr t.data tcs.data = true := htc
      cases lthr with
      | true => simp [pollCheck, readyState, he, htc2]
      | false =>
        have htv2 : lvis = true := by simpa using htv
        simp [pollCheck, readyState, he, htc2, htv2]

theorem pollCheck_not_passes (smp : DomSample) (text : Option String) (st : ComponentState)
    (e : ℕ) (h : passesAll smp text = false) :
    (pollCheck smp text st e).2 = false ∧
    (pollCheck smp text st e).1.loadTime = st.loadTime ∧
    ((pollCheck smp text st e).1.paintWorkCompleted = st.paintWorkCompleted ∨
      (pollCheck smp text st e).1.paintWorkCompleted = false) := by
  obtain ⟨f, vis, en, tc, lthr, lvis, pd⟩ := smp
  cases f with
  | false => exact ⟨rfl, rfl, Or.inl rfl⟩
  | true =>
    cases vis with
    | false => exact ⟨rfl, rfl, Or.inl rfl⟩
    | true =>
      by_cases he : en.getD true = true
      · cases text with
        | none =>
          simp [passesAll, he] at h
          subst h
          refine ⟨?_, ?_, ?_⟩ <;> simp [pollCheck, he]
        | some t =>
          cases tc with
          | none => refine ⟨?_, ?_, ?_⟩ <;> simp [pollCheck, he]
          | some tcs =>
            by_cases htc : hasSubstr t.data tcs.data = true
            · by_cases htv : (if lthr then true else lvis) = true
              · have hpd : pd = false := by
                  simp [passesAll, he, htc] at h
                  cases lthr with
                  | true => simpa using h
                  | false =>
                    have hlv : lvis = true := by simpa using htv
                    simpa [hlv] using h
                subst hpd
                cases lthr with
                | true => refine ⟨?_, ?_, ?_⟩ <;> simp [pollCheck, he, htc]
                | false =>
                  have hlv : lvis = true := by simpa using htv
                  refine ⟨?_, ?_, ?_⟩ <;> simp [pollCheck, he, htc, hlv]
              · cases lthr with
                | true => simp at htv
                | false =>
                  have hlv : lvis = false := by
                    rw [Bool.not_eq_true] at htv
                    simpa using htv
                  refine ⟨?_, ?_, ?_⟩ <;> simp [pollCheck, he, htc, hlv]
            · rw [Bool.not_eq_true] at htc
              refine ⟨?_, ?_, ?_⟩ <;> simp [pollCheck, he, htc]
      · rw [Bool.not_eq_true] at he
        refine ⟨?_, ?_, ?_⟩ <;> simp [pollCheck, he]

theorem pollAux_success (env : ℕ → DomSample) (text : Option String)
    (s0 P D T : ℕ) (hP : 50 ≤ P)
    (hgood : ∀ t, T ≤ t → passesAll (env (s0 + t)) text = true)
    (hbad : ∀ t, t < T → passesAll (env (s0 + t)) text = false) :
    ∀ (m fuel e lc : ℕ) (st : ComponentState),
      m + 1 ≤ fuel →
      T ≤ e + m * P → e + m * P < D →
      (∀ i, i < m → e + i * P < T) →
      max 50 P ≤ s0 + e - lc → lc ≤ s0 + e →
      pollAux env text s0 P D fuel (s0 + e) lc st =
        (readyState (e + m * P), s0 + (e + m * P)) := by
  have hmax : max 50 P = P := max_eq_right hP
  intro m
  induction m with
  | zero =>
    intro fuel e lc st hfuel hT hD hbefore hskip hlc
    rw [Nat.zero_mul, Nat.add_zero] at hT hD ⊢
    obtain ⟨f, rfl⟩ : ∃ f, fuel = f + 1 := ⟨fuel - 1, by omega⟩
    rw [pollAux]
    rw [if_pos (by omega : s0 + e - s0 < D)]
    rw [hmax] at hskip
    rw [hmax, if_neg (by omega)]
    have hp := hgood e hT
    rw [Nat.add_sub_cancel_left]
    rw [pollCheck_passes (env (s0 + e)) text st e hp]
    rfl
  | succ m ih =>
    intro fuel e lc st hfuel hT hD hbefore hskip hlc
    rw [Nat.succ_mul] at hT hD ⊢
    have heT : e < T := by
      have h0 := hbefore 0 (by omega)
      rwa [Nat.zero_mul, Nat.add_zero] at h0
    have heD : e < D := by omega
    obtain ⟨f, rfl⟩ : ∃ f, fuel = f + 1 := ⟨fuel - 1, by omega⟩
    rw [pollAux]
    rw [if_pos (by omega : s0 + e - s0 < D)]
    rw [hmax] at hskip
    rw [hmax, if_neg (by omega)]
    have hp := hbad e heT
    obtain ⟨hbrk, -, -⟩ := pollCheck_not_passes (env (s0 + e)) text st (s0 + e - s0) hp
    simp only [hbrk, Bool.false_eq_true, if_false]
    rw [show s0 + e + P = s0 + (e + P) from Nat.add_assoc s0 e P]
    have hres := ih f (e + P) (s0 + e)
      (pollCheck (env (s0 + e)) text st (s0 + e - s0)).1
      (by omega) (by omega) (by omega)
      (fun i hi => by
        have := hbefore (i + 1) (by omega)
        rw [Nat.succ_mul] at this
        omega)
      (by omega) (by omega)
    rw [show e + P + m * P = e + (m * P + P) from by omega] at hres
    exact hres

theorem pollAux_timeout (env : ℕ → DomSample) (text : Option String)
    (s0 P D : ℕ) (hP : 50 ≤ P)
    (hnv : ∀ t, t < s0 + D → passesAll (env t) text = false) :
    ∀ (fuel e lc : ℕ) (st : ComponentState),
      D - e + 1 ≤ fuel → e < D + P →
      max 50 P ≤ s0 + e - lc → lc ≤ s0 + e →
      st.loadTime = 0 → st.paintWorkCompleted = false →
      ∃ (st' : ComponentState) (eEnd : ℕ),
        pollAux env text s0 P D fuel (s0 + e) lc st = (st', s0 + eEnd) ∧
        st'.loadTime = 0 ∧ st'.paintWorkCompleted = false ∧
        D ≤ eEnd ∧ eEnd < D + P := by
  have hmax : max 50 P = P := max_eq_right hP
  intro fuel
  induction fuel with
  | zero => intro e lc st hfuel; omega
  | succ f ih =>
    intro e lc st hfuel heP hskip hlc hload hpaint
    by_cases he : e < D
    · rw [pollAux]
      rw [if_pos (by omega : s0 + e - s0 < D)]
      rw [hmax] at hskip
      rw [hmax, if_neg (by omega)]
      have hp := hnv (s0 + e) (by omega)
      obtain ⟨hbrk, hl, hpn⟩ := pollCheck_not_passes (env (s0 + e)) text st (s0 + e - s0) hp
      simp only [hbrk, Bool.false_eq_true, if_false]
      rw [show s0 + e + P = s0 + (e + P) from Nat.add_assoc s0 e P]
      refine ih (e + P) (s0 + e) (pollCheck (env (s0 + e)) text st (s0 + e - s0)).1
        (by omega) (by omega) (by omega) (by omega)
        (by rw [hl]; exact hload) ?_
      rcases hpn with h | h
      · rw [h]; exact hpaint
      · exact h
    · rw [pollAux]
      rw [if_neg (by omega : ¬(s0 + e - s0 < D))]
      exact ⟨st, e, rfl, hload, hpaint, by omega, heP⟩

/-- A sample in which every checklist condition holds. -/
def readySample : DomSample := ⟨true, true, some true, none, false, false, true⟩

/-- A sample in which the selector finds nothing. -/
def absentSample : DomSample := ⟨false, false, none, none, false, false, false⟩

/-- The DOM of the C3 counterexample run: the component becomes fully ready
at absolute time 105 (elapsed 55 for a poller started at 50). -/
def c3Env (t : ℕ) : DomSample := if 105 ≤ t then readySample else absentSample

/-- C3 counterexample: with poll interval 50 and timeout 60, a component
that satisfies every applicable condition from elapsed time 55 < 60 onward
is still reported with paintWorkCompleted = false, because no poll tick
lands in the interval [55, 60): the claim fails as stated at this input. -/
theorem claim_C3_counterexample :
    passesAll (c3Env (50 + 55)) none = true ∧
    (55 : ℕ) < 60 ∧
    (waitForReactComponentReady c3Env none 50 50 60).paintWorkCompleted = false ∧
    (waitForReactComponentReady c3Env none 50 50 60).loadTime = 100 := by
  refine ⟨rfl, by norm_num, ?_, ?_⟩ <;> rfl

/-- C3 (amended): for a poller started at s0 ≥ P with poll interval
P ≥ 50 (the CONFIG floor) and timeout D: (success half) if the component
satisfies all applicable checklist conditions exactly from elapsed time T
on and some poll tick k*P falls inside [T, D), the returned state has
paintWorkCompleted = true and loadTime within [T, T + P); (timeout half) if
the checklist is never fully satisfied before the deadline (in particular
if the component never becomes visible), the poller returns, rather than
raising, a state with paintWorkCompleted = false and loadTime equal to the
timeout value up to one tick: D ≤ loadTime < D + P. -/
theorem claim_C3_amended (env : ℕ → DomSample) (text : Option String)
    (s0 P D T : ℕ) (hP : 50 ≤ P) (hs0 : P ≤ s0) :
    ((∀ t, T ≤ t → passesAll (env (s0 + t)) text = true) →
     (∀ t, t < T → passesAll (env (s0 + t)) text = false) →
     (∃ k : ℕ, T ≤ k * P ∧ k * P < D) →
     (waitForReactComponentReady env text s0 P D).paintWorkCompleted = true ∧
     T ≤ (waitForReactComponentReady env text s0 P D).loadTime ∧
     (waitForReactComponentReady env text s0 P D).loadTime < T + P) ∧
    ((∀ t, t < s0 + D → passesAll (env t) text = false) →
     (waitForReactComponentReady env text s0 P D).paintWorkCompleted = false ∧
     D ≤ (waitForReactComponentReady env text s0 P D).loadTime ∧
     (waitForReactComponentReady env text s0 P D).loadTime < D + P) := by
  have hmax : max 50 P = P := max_eq_right hP
  constructor
  · intro hgood hbad hex
    have hm1 : T ≤ Nat.find hex * P := (Nat.find_spec hex).1
    have hmD : Nat.find hex * P < D := (Nat.find_spec hex).2
    have hmlt : ∀ i, i < Nat.find hex → i * P < T := by
      intro i hi
      have hni := Nat.find_min hex hi
      by_contra hcon
      refine hni ⟨by omega, ?_⟩
      have h2 : i * P ≤ Nat.find hex * P := Nat.mul_le_mul_right P (le_of_lt hi)
      omega
    have hfuel : Nat.find hex + 1 ≤ 2 * D + 4 := by
      have h2 : Nat.find hex ≤ Nat.find hex * P :=
        Nat.le_mul_of_pos_right (Nat.find hex) (by omega)
      omega
    generalize hgen : Nat.find hex = m at hm1 hmD hmlt hfuel
    have hrun := pollAux_success env text s0 P D T hP hgood hbad m (2 * D + 4) 0 0
      initComponentState hfuel (by simpa using hm1) (by simpa using hmD)
      (fun i hi => by simpa using hmlt i hi)
      (by rw [hmax]; omega) (by omega)
    have hrun2 : pollAux env text s0 P D (2 * D + 4) s0 0 initComponentState =
        (readyState (m * P), s0 + m * P) := by simpa using hrun
    have hw : waitForReactComponentReady env text s0 P D = readyState (m * P) := by
      simp only [waitForReactComponentReady]
      rw [hrun2]
      by_cases h0 : m * P = 0
      · simp [readyState, h0]
      · simp [readyState, h0]
    rw [hw]
    refine ⟨rfl, hm1, ?_⟩
    show m * P < T + P
    rcases Nat.eq_zero_or_pos m with hm0 | hmpos
    · rw [hm0, Nat.zero_mul] at hm1 ⊢
      omega
    · obtain ⟨m', rfl⟩ : ∃ m', m = m' + 1 := ⟨m - 1, by omega⟩
      have hlt := hmlt m' (by omega)
      rw [Nat.succ_mul]
      omega
  · intro hnv
    obtain ⟨st', eEnd, heq, hload, hpaint, h1, h2⟩ :=
      pollAux_timeout env text s0 P D hP hnv (2 * D + 4) 0 0 initComponentState
        (by omega) (by omega) (by rw [hmax]; omega) (by omega) rfl rfl
    have heq2 : pollAux env text s0 P D (2 * D + 4) s0 0 initComponentState =
        (st', s0 + eEnd) := by simpa using heq
    have hw : waitForReactComponentReady env text s0 P D =
        { st' with loadTime := s0 + eEnd - s0 } := by
      simp only [waitForReactComponentReady]
      rw [heq2]
      simp [hload]
    rw [hw]
    refine ⟨hpaint, ?_, ?_⟩
    · show D ≤ s0 + eEnd - s0
      omega
    · show s0 + eEnd - s0 < D + P
      omega

/-- Witness for C3 (amended): the success half on an always-ready DOM
(ready from elapsed 0, first tick breaks) and the timeout half on a DOM
where the selector never matches. -/
theorem claim_C3_amended_witness :
    ((waitForReactComponentReady (fun _ => readySample) none 50 50 100).paintWorkCompleted = true ∧
     0 ≤ (waitForReactComponentReady (fun _ => readySample) none 50 50 100).loadTime ∧
     (waitForReactComponentReady (fun _ => readySample) none 50 50 100).loadTime < 0 + 50) ∧
    ((waitForReactComponentReady (fun _ => absentSample) none 50 50 100).paintWorkCompleted = false ∧
     100 ≤ (waitForReactComponentReady (fun _ => absentSample) none 50 50 100).loadTime ∧
     (waitForReactComponentReady (fun _ => absentSample) none 50 50 100).loadTime < 100 + 50) :=
  ⟨(claim_C3_amended (fun _ => readySample) none 50 50 100 0 (by norm_num) (by norm_num)).1
      (fun t _ => rfl) (fun t ht => absurd ht (Nat.not_lt_zero t))
      ⟨0, by norm_num⟩,
   (claim_C3_amended (fun _ => absentSample) none 50 50 100 0 (by norm_num) (by norm_num)).2
      (fun t _ => rfl)⟩

/-- Every loop outcome from a paint-incomplete state is either still
paint-incomplete or the full success record of some elapsed time: the
short-circuit order means a break can only happen with every check true. -/
theorem pollAux_result (env : ℕ → DomSample) (text : Option String) (s0 P D : ℕ) :
    ∀ (fuel : ℕ) (now lc : ℕ) (st : ComponentState), st.paintWorkCompleted = false →
      (pollAux env text s0 P D fuel now lc st).1.paintWorkCompleted = false ∨
      ∃ e, (pollAux env text s0 P D fuel now lc st).1 = readyState e := by
  intro fuel
  induction fuel with
  | zero => intro now lc st hst; exact Or.inl hst
  | succ f ih =>
    intro now lc st hst
    rw [pollAux]
    by_cases hin : now - s0 < D
    · rw [if_pos hin]
      by_cases hth : now - lc < max 50 P
      · rw [if_pos hth]
        exact ih _ _ st hst
      · rw [if_neg hth]
        by_cases hpass : passesAll (env now) text = true
        · rw [pollCheck_passes (env now) text st (now - s0) hpass]
          exact Or.inr ⟨now - s0, rfl⟩
        · rw [Bool.not_eq_true] at hpass
          obtain ⟨hbrk, -, hpn⟩ := pollCheck_not_passes (env now) text st (now - s0) hpass
          simp only [hbrk, Bool.false_eq_true, if_false]
          refine ih _ _ _ ?_
          rcases hpn with h | h
          · rw [h]; exact hst
          · exact h
    · rw [if_neg hin]
      exact Or.inl hst

/-- C4: for every environment, expected text, start time, poll interval and
timeout, the returned ComponentState has loadTime ≥ 0, and whenever
paintWorkCompleted is true every preceding checklist field (visible,
enabled, interactable, contains-text, text-visible) is true as recorded in
the same breaking tick: the checklist short-circuits, so paint completion
is only ever evaluated (and set) after all earlier checks passed. -/
theorem claim_C4 (env : ℕ → DomSample) (text : Option String) (s0 P D : ℕ) :
    0 ≤ (waitForReactComponentReady env text s0 P D).loadTime ∧
    ((waitForReactComponentReady env text s0 P D).paintWorkCompleted = true →
      (waitForReactComponentReady env text s0 P D).isVisible = true ∧
      (waitForReactComponentReady env text s0 P D).isEnabled = true ∧
      (waitForReactComponentReady env text s0 P D).isInteractable = true ∧
      (waitForReactComponentReady env text s0 P D).containsExpectedText = true ∧
      (waitForReactComponentReady env text s0 P D).expectedTextIsVisible = true) := by
  refine ⟨Nat.zero_le _, ?_⟩
  intro hp
  have hsel : waitForReactComponentReady env text s0 P D =
      (pollAux env text s0 P D (2 * D + 4) s0 0 initComponentState).1 ∨
      waitForReactComponentReady env text s0 P D =
      { (pollAux env text s0 P D (2 * D + 4) s0 0 initComponentState).1 with
        loadTime := (pollAux env text s0 P D (2 * D + 4) s0 0 initComponentState).2 - s0 } := by
    unfold waitForReactComponentReady
    by_cases h0 : (pollAux env text s0 P D (2 * D + 4) s0 0 initComponentState).1.loadTime = 0
    · exact Or.inr (by rw [if_pos h0])
    · exact Or.inl (by rw [if_neg h0])
  rcases pollAux_result env text s0 P D (2 * D + 4) s0 0 initComponentState rfl with
    hfalse | ⟨e, he⟩
  · exfalso
    rcases hsel with hw | hw <;> rw [hw] at hp
    · rw [hfalse] at hp
      cases hp
    · rw [show ({ (pollAux env text s0 P D (2 * D + 4) s0 0 initComponentState).1 with
          loadTime := (pollAux env text s0 P D (2 * D + 4) s0 0 initComponentState).2 - s0 }
            : ComponentState).paintWorkCompleted =
          (pollAux env text s0 P D (2 * D + 4) s0 0 initComponentState).1.paintWorkCompleted
        from rfl, hfalse] at hp
      cases hp
  · rcases hsel with hw | hw <;> rw [hw, he]
    · exact ⟨rfl, rfl, rfl, rfl, rfl⟩
    · exact ⟨rfl, rfl, rfl, rfl, rfl⟩

/-- Witness for C4: an always-ready environment, where the poller breaks on
the first tick with paintWorkCompleted = true and every other flag true. -/
theorem claim_C4_witness :
    (waitForReactComponentReady (fun _ => readySample) none 50 50 100).paintWorkCompleted = true ∧
    (waitForReactComponentReady (fun _ => readySample) none 50 50 100).isVisible = true ∧
    (waitForReactComponentReady (fun _ => readySample) none 50 50 100).isEnabled = true ∧
    (waitForReactComponentReady (fun _ => readySample) none 50 50 100).isInteractable = true ∧
    (waitForReactComponentReady (fun _ => readySample) none 50 50 100).containsExpectedText = true ∧
    (waitForReactComponentReady (fun _ => readySample) none 50 50 100).expectedTextIsVisible = true :=
  ⟨rfl, (claim_C4 (fun _ => readySample) none 50 50 100).2 rfl⟩
